import Mathlib

/-!
Shallow embedding of the Overture.rs terminal rendering core.

Conventions of the embedding:
* Rust `u32` values are modelled as `Nat` and `i32` values as `Int`; Rust
  arithmetic that panics on overflow (debug `+`, `-` on machine integers) is
  modelled exactly, while the non-panicking `as` casts between `i32` and `u32`
  (which reinterpret the two's-complement bits) are modelled explicitly by
  `i32_as_u32` and `u32_as_i32`.
* `saturating_sub` on `u32` is exactly `Nat` subtraction.
* The engine's terminal output is modelled as the list of strings passed to
  the successive `print!` calls; `println!()` contributes a `"\n"` entry.
  A `panic!`-like abort (the `todo!()` arm in `render`) makes the output
  `Option.none`.
* A `Renderable` object is represented by the pixel list its pure `pixels()`
  method returns; the default trait methods (`render_at`, `translate`,
  `align`, `rasterize`, `prune`, `protect`) become functions on that list.
-/

namespace Overture

/-- `ANSISequence` from `src/ioopts/ansi.rs`. -/
inductive ANSISequence
  | Reset | Bold | Dim | Italic | Underline | Blink | Invert | Hidden | Strikethrough
  | NoBold | NoDim | NoItalic | NoUnderline | NoBlink | NoInvert | NoHidden | NoStrikethrough
  | FgBlack | FgRed | FgGreen | FgYellow | FgBlue | FgMagenta | FgCyan | FgWhite
  | FgBrightBlack | FgBrightRed | FgBrightGreen | FgBrightYellow
  | FgBrightBlue | FgBrightMagenta | FgBrightCyan | FgBrightWhite
  | BgBlack | BgRed | BgGreen | BgYellow | BgBlue | BgMagenta | BgCyan | BgWhite
  | BgBrightBlack | BgBrightRed | BgBrightGreen | BgBrightYellow
  | BgBrightBlue | BgBrightMagenta | BgBrightCyan | BgBrightWhite
  | FgRGB (r g b : Nat)
  | BgRGB (r g b : Nat)

/-- `ansi::styling::RESET`. -/
def RESET : String := "\x1b[0m"

/-- `ansi::color::fg_rgb`. -/
def fg_rgb (r g b : Nat) : String :=
  "\x1b[38;2;" ++ toString r ++ ";" ++ toString g ++ ";" ++ toString b ++ "m"

/-- `ansi::color::bg_rgb`. -/
def bg_rgb (r g b : Nat) : String :=
  "\x1b[48;2;" ++ toString r ++ ";" ++ toString g ++ ";" ++ toString b ++ "m"

/-- `ANSISequence::to_esc_code`; the string constants of `ansi::styling` and
`ansi::color` are inlined. -/
def ANSISequence.to_esc_code : ANSISequence → String
  | .Reset => RESET
  | .Bold => "\x1b[1m"
  | .Dim => "\x1b[2m"
  | .Italic => "\x1b[3m"
  | .Underline => "\x1b[4m"
  | .Blink => "\x1b[5m"
  | .Invert => "\x1b[7m"
  | .Hidden => "\x1b[8m"
  | .Strikethrough => "\x1b[9m"
  | .NoBold => "\x1b[21m"
  | .NoDim => "\x1b[22m"
  | .NoItalic => "\x1b[23m"
  | .NoUnderline => "\x1b[24m"
  | .NoBlink => "\x1b[25m"
  | .NoInvert => "\x1b[27m"
  | .NoHidden => "\x1b[28m"
  | .NoStrikethrough => "\x1b[29m"
  | .FgBlack => "\x1b[30m"
  | .FgRed => "\x1b[31m"
  | .FgGreen => "\x1b[32m"
  | .FgYellow => "\x1b[33m"
  | .FgBlue => "\x1b[34m"
  | .FgMagenta => "\x1b[35m"
  | .FgCyan => "\x1b[36m"
  | .FgWhite => "\x1b[37m"
  | .FgBrightBlack => "\x1b[90m"
  | .FgBrightRed => "\x1b[91m"
  | .FgBrightGreen => "\x1b[92m"
  | .FgBrightYellow => "\x1b[93m"
  | .FgBrightBlue => "\x1b[94m"
  | .FgBrightMagenta => "\x1b[95m"
  | .FgBrightCyan => "\x1b[96m"
  | .FgBrightWhite => "\x1b[97m"
  | .BgBlack => "\x1b[40m"
  | .BgRed => "\x1b[41m"
  | .BgGreen => "\x1b[42m"
  | .BgYellow => "\x1b[43m"
  | .BgBlue => "\x1b[44m"
  | .BgMagenta => "\x1b[45m"
  | .BgCyan => "\x1b[46m"
  | .BgWhite => "\x1b[47m"
  | .BgBrightBlack => "\x1b[100m"
  | .BgBrightRed => "\x1b[101m"
  | .BgBrightGreen => "\x1b[102m"
  | .BgBrightYellow => "\x1b[103m"
  | .BgBrightBlue => "\x1b[104m"
  | .BgBrightMagenta => "\x1b[105m"
  | .BgBrightCyan => "\x1b[106m"
  | .BgBrightWhite => "\x1b[107m"
  | .FgRGB r g b => fg_rgb r g b
  | .BgRGB r g b => bg_rgb r g b

/-- `RenderStyle` from `src/interfaces/styling.rs`: `Nil` (invisible),
`Plain`, or `Styled(seq, rest)` stacking an attribute atop another layer. -/
inductive RenderStyle
  | Nil
  | Plain
  | Styled (seq : ANSISequence) (rest : RenderStyle)

/-- `RenderChar` from `src/interfaces/rendering.rs`: a glyph with a style. -/
structure RenderChar where
  ch : Char
  style : RenderStyle

/-- `RenderChar::BLANK_RENDER_CHAR`: a plain space. -/
def RenderChar.BLANK_RENDER_CHAR : RenderChar := { ch := ' ', style := RenderStyle.Plain }

/-- `DiscreteCoord` from `src/interfaces/geometry.rs` (`u32` components). -/
structure DiscreteCoord where
  x : Nat
  y : Nat
deriving DecidableEq

/-- `DiscreteCoord::new`. -/
def DiscreteCoord.new (x y : Nat) : DiscreteCoord := { x := x, y := y }

/-- `Translation` from `src/interfaces/geometry.rs` (`i32` components). -/
structure Translation where
  x : Int
  y : Int
deriving DecidableEq

/-- `Translation::new`. -/
def Translation.new (x y : Int) : Translation := { x := x, y := y }

/-- The Rust cast `i32 as u32`: two's-complement reinterpretation. -/
def i32_as_u32 (x : Int) : Nat := (x % (2 ^ 32 : Int)).toNat

/-- The Rust cast `u32 as i32`: two's-complement reinterpretation. -/
def u32_as_i32 (n : Nat) : Int :=
  if n < 2 ^ 31 then (n : Int) else (n : Int) - 2 ^ 32

/-- `impl Add<Translation> for DiscreteCoord`: applies the signed translation,
clamping each negative result to zero
(`(self.x as i32 + rhs.x).max(0) as u32`). -/
def DiscreteCoord.addT (c : DiscreteCoord) (t : Translation) : DiscreteCoord :=
  DiscreteCoord.new (max ((c.x : Int) + t.x) 0).toNat (max ((c.y : Int) + t.y) 0).toNat

/-- `Pixel` from `src/interfaces/pixels.rs`; the source field `protected`
is rendered here as `protected_` (`protected` is a Lean keyword). -/
structure Pixel where
  content : RenderChar
  position : DiscreteCoord
  protected_ : Bool

/-- `Pixel::new`. -/
def Pixel.new (content : RenderChar) (position : DiscreteCoord) (prot : Bool) : Pixel :=
  { content := content, position := position, protected_ := prot }

/-- `RenderPlacementConfig` from `src/interfaces/geometry.rs`. -/
inductive RenderPlacementConfig
  | TopLeft
  | TopRight
  | BottomLeft
  | BottomRight
  | CenterLeft
  | CenterTop
  | CenterRight
  | CenterBottom
  | CenterStage
  | Offset (t : Translation)
deriving DecidableEq

/-- The `OvertureRenderEngine` state from `src/engine.rs`: fixed `width` and a
growable 2D `buffer`. The `objects : RenderableList` field is omitted: no
engine operation in the source ever reads or writes it. -/
structure OvertureRenderEngine where
  width : Nat
  buffer : List (List RenderChar)

/-- A row of `width` blank characters
(`vec![RenderChar::BLANK_RENDER_CHAR; width]`). -/
def blankRow (width : Nat) : List RenderChar :=
  List.replicate width RenderChar.BLANK_RENDER_CHAR

/-- `OvertureRenderEngine::new`. -/
def OvertureRenderEngine.new (width height : Nat) : OvertureRenderEngine :=
  { width := width, buffer := List.replicate height (blankRow width) }

/-- Updates the element at one index of a list, leaving the list unchanged
when the index is out of range. -/
def listModify (l : List α) (n : Nat) (f : α → α) : List α :=
  match l, n with
  | [], _ => []
  | a :: rest, 0 => f a :: rest
  | a :: rest, Nat.succ m => a :: listModify rest m f

/-- The `while self.buffer.len() <= y` growth loop of `set_pixel`: appends
blank rows until the buffer has at least `y + 1` rows. -/
def growBuffer (buffer : List (List RenderChar)) (width y : Nat) : List (List RenderChar) :=
  buffer ++ List.replicate (y + 1 - buffer.length) (blankRow width)

/-- `OvertureRenderEngine::set_pixel`: grows the buffer to cover row `y`,
then overwrites cell `(y, x)` when `x < width` and otherwise drops the
write. -/
def set_pixel (e : OvertureRenderEngine) (x y : Nat) (ch : RenderChar) : OvertureRenderEngine :=
  let buf := growBuffer e.buffer e.width y
  if x < e.width then
    { e with buffer := listModify buf y (fun row => row.set x ch) }
  else
    { e with buffer := buf }

/-- Default `Renderable::render_at`: writes each pixel of `pixels()` at
`(x + pixel.position.x, y + pixel.position.y)`; no-op when `pixels()` is
empty. -/
def render_at (pixels : List Pixel) (x y : Nat) (e : OvertureRenderEngine) : OvertureRenderEngine :=
  if pixels.isEmpty then e
  else
    pixels.foldl
      (fun eng p => set_pixel eng (x + p.position.x) (y + p.position.y) p.content) e

/-- Default `Renderable::translate`: every pixel's position shifted by `by`
(via `impl Add<Translation> for DiscreteCoord`, which clamps at zero). -/
def translate (pixels : List Pixel) (t : Translation) : List Pixel :=
  pixels.map fun p => Pixel.new p.content (p.position.addT t) p.protected_

/-- `pixels.iter().map(|p| p.position.x).min().unwrap_or(0)`. -/
def minX (pixels : List Pixel) : Nat :=
  ((pixels.map fun p => p.position.x).min?).getD 0

/-- `pixels.iter().map(|p| p.position.y).min().unwrap_or(0)`. -/
def minY (pixels : List Pixel) : Nat :=
  ((pixels.map fun p => p.position.y).min?).getD 0

/-- `pixels.iter().map(|p| p.position.x).max().unwrap_or(0)`. -/
def maxX (pixels : List Pixel) : Nat :=
  ((pixels.map fun p => p.position.x).max?).getD 0

/-- `pixels.iter().map(|p| p.position.y).max().unwrap_or(0)`. -/
def maxY (pixels : List Pixel) : Nat :=
  ((pixels.map fun p => p.position.y).max?).getD 0

/-- The placement match of the default `Renderable::align`: note the
`Offset` arm is `(offset.x as u32, offset.y as u32)` — a plain wrapping
cast, with no clamping. -/
def alignOffsets (cfg : RenderPlacementConfig) (aw ah : Nat) : Nat × Nat :=
  match cfg with
  | .TopLeft => (0, 0)
  | .TopRight => (aw, 0)
  | .BottomLeft => (0, ah)
  | .BottomRight => (aw, ah)
  | .CenterTop => (aw / 2, 0)
  | .CenterBottom => (aw / 2, ah)
  | .CenterLeft => (0, ah / 2)
  | .CenterRight => (aw, ah / 2)
  | .CenterStage => (aw / 2, ah / 2)
  | .Offset offset => (i32_as_u32 offset.x, i32_as_u32 offset.y)

/-- Default `Renderable::align`: derives the tight bounding box of
`pixels()`, the available space inside `dim` (`saturating_sub`), the anchor
from the placement policy, and translates `pixels()` by
`(offset_x as i32 - min_x as i32, offset_y as i32 - min_y as i32)`. -/
def align (pixels : List Pixel) (cfg : RenderPlacementConfig) (dim : DiscreteCoord) : List Pixel :=
  if pixels.isEmpty then []
  else
    let obj_width := maxX pixels - minX pixels + 1
    let obj_height := maxY pixels - minY pixels + 1
    let available_width := dim.x - obj_width
    let available_height := dim.y - obj_height
    let off := alignOffsets cfg available_width available_height
    let total_translation := Translation.new
      (u32_as_i32 off.1 - u32_as_i32 (minX pixels))
      (u32_as_i32 off.2 - u32_as_i32 (minY pixels))
    translate pixels total_translation

/-- Default `Renderable::rasterize`: forwards `pixels()` unchanged. -/
def rasterize (pixels : List Pixel) : List Pixel := pixels

/-- Default `Renderable::prune`: keeps the pixels of `rasterize()` whose
glyph differs from the blank glyph or whose protection flag is set. -/
def prune (pixels : List Pixel) : List Pixel :=
  (rasterize pixels).filter fun pixel =>
    (pixel.content.ch != RenderChar.BLANK_RENDER_CHAR.ch) || pixel.protected_

/-- Default `Renderable::protect`: every pixel's protection flag forced to
`true`. -/
def protect (pixels : List Pixel) : List Pixel :=
  pixels.map fun p => Pixel.new p.content p.position true

/-- Default `Renderable::set_protect`. -/
def set_protect (pixels : List Pixel) (prot : Bool) : List Pixel :=
  pixels.map fun p => Pixel.new p.content p.position prot

/-- The normalization step of `load_renderable`: every pixel translated by
`-(min_x, min_y)` (plain `u32` subtraction, in range by minimality). -/
def normalizePixels (pixels : List Pixel) : List Pixel :=
  pixels.map fun p =>
    Pixel.new p.content
      (DiscreteCoord.new (p.position.x - minX pixels) (p.position.y - minY pixels))
      p.protected_

/-- The anchor computation of `load_renderable` (lines 281-309 of
`src/engine.rs`): sizes come from the normalized pixels, available space
from `width`/current row count with `saturating_sub`, and the placement
match clamps `Offset` components at zero (`max(offset.x, 0) as u32`). -/
def loadAnchor (width bufLen : Nat) (pixels : List Pixel)
    (placement : Option RenderPlacementConfig) : Nat × Nat :=
  let normalized_pixels := normalizePixels pixels
  let obj_width := maxX normalized_pixels + 1
  let obj_height := maxY normalized_pixels + 1
  let available_width := width - obj_width
  let available_height := bufLen - obj_height
  match placement.getD RenderPlacementConfig.TopLeft with
  | .TopLeft => (0, 0)
  | .TopRight => (available_width, 0)
  | .BottomLeft => (0, available_height)
  | .BottomRight => (available_width, available_height)
  | .CenterTop => (available_width / 2, 0)
  | .CenterBottom => (available_width / 2, available_height)
  | .CenterLeft => (0, available_height / 2)
  | .CenterRight => (available_width, available_height / 2)
  | .CenterStage => (available_width / 2, available_height / 2)
  | .Offset offset => (i32_as_u32 (max offset.x 0), i32_as_u32 (max offset.y 0))

/-- `OvertureRenderEngine::load_renderable`: no-op on empty `pixels()`,
otherwise resolves the anchor and calls `obj.render_at(x, y, self)` — which
re-fetches the original, un-normalized `pixels()`. -/
def load_renderable (e : OvertureRenderEngine) (pixels : List Pixel)
    (placement : Option RenderPlacementConfig) : OvertureRenderEngine :=
  if pixels.isEmpty then e
  else
    let a := loadAnchor e.width e.buffer.length pixels placement
    render_at pixels a.1 a.2 e

/-- The output of the per-cell emission loop in
`OvertureRenderEngine::render` (lines 198-222 of `src/engine.rs`), as the
list of strings handed to `print!`; `none` models the `todo!()` abort on a
top-level `Nil` style. -/
def renderCellTokens (c : RenderChar) : Option (List String) :=
  match c.style with
  | RenderStyle.Plain => some [String.singleton c.ch]
  | RenderStyle.Styled seq boxed_style =>
      some ([ANSISequence.to_esc_code seq] ++
        (match boxed_style with
        | RenderStyle.Plain => [String.singleton c.ch]
        | RenderStyle.Styled _ _ =>
            let inner_ch : RenderChar := { ch := c.ch, style := boxed_style }
            match inner_ch.style with
            | RenderStyle.Nil => [String.singleton RenderChar.BLANK_RENDER_CHAR.ch]
            | RenderStyle.Plain => [String.singleton inner_ch.ch]
            | RenderStyle.Styled _ _ => [String.singleton inner_ch.ch]
        | RenderStyle.Nil => [String.singleton RenderChar.BLANK_RENDER_CHAR.ch]) ++
        [RESET])
  | RenderStyle.Nil => none

/-- One buffer row of `render`: the cells' tokens in order. -/
def renderLineTokens : List RenderChar → Option (List String)
  | [] => some []
  | c :: rest => do
      let t ← renderCellTokens c
      let ts ← renderLineTokens rest
      pure (t ++ ts)

/-- All buffer rows of `render`, each followed by the `println!()`
newline. -/
def renderRowsTokens : List (List RenderChar) → Option (List String)
  | [] => some []
  | r :: rest => do
      let t ← renderLineTokens r
      let ts ← renderRowsTokens rest
      pure (t ++ ["\n"] ++ ts)

/-- The buffer-padding loop at the top of `render`: blank rows are pushed
until the buffer has at least `height` rows. -/
def renderPad (e : OvertureRenderEngine) (height : Nat) : OvertureRenderEngine :=
  { e with buffer := e.buffer ++ List.replicate (height - e.buffer.length) (blankRow e.width) }

/-- `OvertureRenderEngine::render`, restricted to its terminal output: pads
the buffer to `height` rows and emits every cell. -/
def renderOutput (e : OvertureRenderEngine) (height : Nat) : Option (List String) :=
  renderRowsTokens (renderPad e height).buffer

/-- Every buffer row holds exactly `width` cells. -/
def buffWF (width : Nat) (buffer : List (List RenderChar)) : Prop :=
  ∀ row ∈ buffer, row.length = width

/-- The engine invariant of the buffer shape. -/
def rowsWF (e : OvertureRenderEngine) : Prop :=
  buffWF e.width e.buffer

instance (width : Nat) (buffer : List (List RenderChar)) : Decidable (buffWF width buffer) := by
  unfold buffWF; infer_instance

instance (e : OvertureRenderEngine) : Decidable (rowsWF e) := by
  unfold rowsWF; infer_instance

/-- The spec's reading of `align` (placement table of spec section 4.1):
identical to `align` except that the `Offset(t)` anchor is
`(max(t.x, 0), max(t.y, 0))` — negative components clamped to zero. Stated
for comparison against the `align` of the source, whose `Offset` arm casts
without clamping. -/
def alignClaimed (pixels : List Pixel) (cfg : RenderPlacementConfig) (dim : DiscreteCoord) :
    List Pixel :=
  if pixels.isEmpty then []
  else
    let obj_width := maxX pixels - minX pixels + 1
    let obj_height := maxY pixels - minY pixels + 1
    let available_width := dim.x - obj_width
    let available_height := dim.y - obj_height
    let off := match cfg with
      | .TopLeft => (0, 0)
      | .TopRight => (available_width, 0)
      | .BottomLeft => (0, available_height)
      | .BottomRight => (available_width, available_height)
      | .CenterTop => (available_width / 2, 0)
      | .CenterBottom => (available_width / 2, available_height)
      | .CenterLeft => (0, available_height / 2)
      | .CenterRight => (available_width, available_height / 2)
      | .CenterStage => (available_width / 2, available_height / 2)
      | .Offset offset => (i32_as_u32 (max offset.x 0), i32_as_u32 (max offset.y 0))
    let total_translation := Translation.new
      (u32_as_i32 off.1 - u32_as_i32 (minX pixels))
      (u32_as_i32 off.2 - u32_as_i32 (minY pixels))
    translate pixels total_translation

/-- Two plain pixels at `(0,0)` and `(10,0)`: a drawable whose bounding box
does not start at a single point, used to observe `align`'s `Offset`
handling. -/
def farPairPixels : List Pixel :=
  [Pixel.new { ch := 'A', style := RenderStyle.Plain } (DiscreteCoord.new 0 0) false,
   Pixel.new { ch := 'B', style := RenderStyle.Plain } (DiscreteCoord.new 10 0) false]

/-- A single plain pixel whose native position `(3,0)` is away from the
origin: a drawable whose `pixels()` is not normalized. -/
def offAxisPixels : List Pixel :=
  [Pixel.new { ch := 'A', style := RenderStyle.Plain } (DiscreteCoord.new 3 0) false]

/-- The chain `Styled(Bold, Styled(FgRed, Plain))`: two stacked
attributes over a plain base. -/
def boldOverRed : RenderStyle :=
  RenderStyle.Styled ANSISequence.Bold (RenderStyle.Styled ANSISequence.FgRed RenderStyle.Plain)

/-- The chain `Styled(Bold, Styled(Dim, Nil))`: a `Nil` nested below two
attributes. -/
def boldDimNil : RenderStyle :=
  RenderStyle.Styled ANSISequence.Bold (RenderStyle.Styled ANSISequence.Dim RenderStyle.Nil)

/- ------------------------------------------------------------------ -/
/- Helper lemmas shared by the claim theorems.                         -/
/- ------------------------------------------------------------------ -/

theorem u32_as_i32_coe (n : Nat) (h : n < 2 ^ 31) : u32_as_i32 n = (n : Int) := by
  unfold u32_as_i32
  rw [if_pos h]

theorem u32_i32_roundtrip (x : Int) (h1 : -(2 ^ 31) ≤ x) (h2 : x < 2 ^ 31) :
    u32_as_i32 (i32_as_u32 x) = x := by
  unfold u32_as_i32 i32_as_u32
  split <;> omega

theorem i32_as_u32_of_nonneg (x : Int) (h1 : 0 ≤ x) (h2 : x < 2 ^ 32) :
    i32_as_u32 x = x.toNat := by
  unfold i32_as_u32
  omega

theorem listModify_append_singleton (l : List α) (a : α) (f : α → α) :
    listModify (l ++ [a]) l.length f = l ++ [f a] := by
  induction l with
  | nil => rfl
  | cons b bs ih => simpa [listModify] using ih

theorem listModify_forall {P : α → Prop} (f : α → α) (hf : ∀ a, P a → P (f a)) :
    ∀ (l : List α) (n : Nat), (∀ a ∈ l, P a) → ∀ a ∈ listModify l n f, P a := by
  intro l
  induction l with
  | nil => intro n _ a ha; simp [listModify] at ha
  | cons b bs ih =>
      intro n hl a ha
      cases n with
      | zero =>
          rcases List.mem_cons.mp ha with rfl | ha
          · exact hf b (hl b (List.mem_cons_self _ _))
          · exact hl a (List.mem_cons_of_mem _ ha)
      | succ m =>
          rcases List.mem_cons.mp ha with rfl | ha
          · exact hl _ (List.mem_cons_self _ _)
          · exact ih m (fun a ha => hl a (List.mem_cons_of_mem _ ha)) a ha

theorem buffWF_append {w : Nat} {b1 b2 : List (List RenderChar)}
    (h1 : buffWF w b1) (h2 : buffWF w b2) : buffWF w (b1 ++ b2) := by
  intro row hrow
  rcases List.mem_append.mp hrow with h | h
  · exact h1 row h
  · exact h2 row h

theorem buffWF_replicate (w n : Nat) : buffWF w (List.replicate n (blankRow w)) := by
  intro row hrow
  rw [List.eq_of_mem_replicate hrow]
  simp [blankRow]

theorem rowsWF_set_pixel (e : OvertureRenderEngine) (x y : Nat) (ch : RenderChar)
    (h : rowsWF e) : rowsWF (set_pixel e x y ch) := by
  have hgrow : buffWF e.width (growBuffer e.buffer e.width y) :=
    buffWF_append h (buffWF_replicate _ _)
  unfold rowsWF set_pixel
  split
  · exact listModify_forall _ (fun row hrow => by simpa using hrow) _ _ hgrow
  · exact hgrow

theorem rowsWF_foldl_set_pixel (pixels : List Pixel) (x y : Nat)
    (e : OvertureRenderEngine) (h : rowsWF e) :
    rowsWF (pixels.foldl
      (fun eng p => set_pixel eng (x + p.position.x) (y + p.position.y) p.content) e) := by
  induction pixels generalizing e with
  | nil => exact h
  | cons p rest ih => exact ih _ (rowsWF_set_pixel _ _ _ _ h)

/- ------------------------------------------------------------------ -/
/- Claim theorems.                                                     -/
/- ------------------------------------------------------------------ -/

/-- C1: for a cell whose chain is `Styled(seq, rest)` with `rest` itself a
`Styled` chain, the render loop emits exactly the outermost attribute's
escape code, then the glyph once, then one reset: inner attributes
contribute no escape codes. -/
theorem render_chain_emits_outermost_only (seq s2 : ANSISequence) (rest : RenderStyle) (c : Char) :
    renderCellTokens { ch := c, style := RenderStyle.Styled seq (RenderStyle.Styled s2 rest) } =
      some [seq.to_esc_code, String.singleton c, RESET] := rfl

/-- C2 counterexample: a cell stacking `Bold` atop `FgRed` renders as
`[bold-code, "A", reset]`; the inner `FgRed` escape code is not emitted, so
the escape codes are not emitted "in chain order, outer to inner". -/
theorem render_chain_drops_inner_code :
    renderCellTokens { ch := 'A', style := boldOverRed } =
      some [ANSISequence.Bold.to_esc_code, String.singleton 'A', RESET] ∧
    renderCellTokens { ch := 'A', style := boldOverRed } ≠
      some [ANSISequence.Bold.to_esc_code, ANSISequence.FgRed.to_esc_code,
        String.singleton 'A', RESET] :=
  ⟨rfl, by decide⟩

/-- C2 amended: rendering a styled cell whose chain continues with anything
but `Nil` emits only the outermost attribute's escape code before the
glyph, prints the character once, then one global reset. -/
theorem render_styled_cell_output (seq : ANSISequence) (rest : RenderStyle) (c : Char)
    (h : rest ≠ RenderStyle.Nil) :
    renderCellTokens { ch := c, style := RenderStyle.Styled seq rest } =
      some [seq.to_esc_code, String.singleton c, RESET] := by
  cases rest with
  | Nil => exact absurd rfl h
  | Plain => rfl
  | Styled s r => rfl

/-- C2 amended, witness at `Bold` atop `FgRed` atop `Plain`. -/
theorem render_styled_cell_output_witness :
    (RenderStyle.Styled ANSISequence.FgRed RenderStyle.Plain ≠ RenderStyle.Nil) ∧
    renderCellTokens { ch := 'A', style := boldOverRed } =
      some [ANSISequence.Bold.to_esc_code, String.singleton 'A', RESET] :=
  ⟨fun h => RenderStyle.noConfusion h,
   render_styled_cell_output ANSISequence.Bold
    (RenderStyle.Styled ANSISequence.FgRed RenderStyle.Plain) 'A'
    (fun h => RenderStyle.noConfusion h)⟩

/-- C3: a cell whose top-level style is `Nil` does not print the blank
glyph — the `RenderStyle::Nil` arm of `render` is `todo!()`, which aborts
(`none` in this model); moreover a `Nil` nested below two attributes prints
the cell's own glyph, not the blank. Only `Styled(seq, Nil)` blanks the
glyph. -/
theorem render_nil_style_unimplemented :
    (∀ c : Char, renderCellTokens { ch := c, style := RenderStyle.Nil } = none) ∧
    renderOutput { width := 1, buffer := [[{ ch := 'A', style := RenderStyle.Nil }]] } 1 = none ∧
    renderCellTokens { ch := 'A', style := boldDimNil } =
      some [ANSISequence.Bold.to_esc_code, String.singleton 'A', RESET] :=
  ⟨fun _ => rfl, rfl, rfl⟩

/-- C5 counterexample: aligning the pixel pair `{'A' at (0,0), 'B' at
(10,0)}` with `Offset(-3, 0)` moves `'B'` to `(7,0)` — the negative
component acts as `-3`, not as the clamped `0` the claim's table
prescribes (and which `alignClaimed` implements). -/
theorem align_offset_not_clamped :
    (align farPairPixels (RenderPlacementConfig.Offset (Translation.new (-3) 0))
        (DiscreteCoord.new 12 1)).map (fun p => p.position) =
      [DiscreteCoord.new 0 0, DiscreteCoord.new 7 0] ∧
    (alignClaimed farPairPixels (RenderPlacementConfig.Offset (Translation.new (-3) 0))
        (DiscreteCoord.new 12 1)).map (fun p => p.position) =
      [DiscreteCoord.new 0 0, DiscreteCoord.new 10 0] ∧
    align farPairPixels (RenderPlacementConfig.Offset (Translation.new (-3) 0))
        (DiscreteCoord.new 12 1) ≠
      alignClaimed farPairPixels (RenderPlacementConfig.Offset (Translation.new (-3) 0))
        (DiscreteCoord.new 12 1) :=
  ⟨by decide, by decide,
   fun h => absurd (congrArg (List.map fun p => p.position) h) (by decide)⟩

/-- C5 amended: only `load_renderable` clamps the `Offset` anchor's
negative components to zero; `align` casts them to `u32` without clamping,
so its `Offset(t)` resolution amounts to the translation
`(t.x - min_x, t.y - min_y)` applied to `pixels()`. -/
theorem offset_anchor_resolution (w len : Nat) (pixels : List Pixel) (t : Translation)
    (dim : DiscreteCoord) (hne : pixels ≠ [])
    (hx1 : -(2 ^ 31) ≤ t.x) (hx2 : t.x < 2 ^ 31)
    (hy1 : -(2 ^ 31) ≤ t.y) (hy2 : t.y < 2 ^ 31)
    (hmx : minX pixels < 2 ^ 31) (hmy : minY pixels < 2 ^ 31) :
    loadAnchor w len pixels (some (RenderPlacementConfig.Offset t)) =
      ((max t.x 0).toNat, (max t.y 0).toNat) ∧
    align pixels (RenderPlacementConfig.Offset t) dim =
      translate pixels
        (Translation.new (t.x - (minX pixels : Int)) (t.y - (minY pixels : Int))) := by
  constructor
  · show (i32_as_u32 (max t.x 0), i32_as_u32 (max t.y 0)) = _
    rw [i32_as_u32_of_nonneg _ (le_max_right _ _) (by omega),
        i32_as_u32_of_nonneg _ (le_max_right _ _) (by omega)]
  · cases pixels with
    | nil => exact absurd rfl hne
    | cons p ps =>
        simp only [align, List.isEmpty_cons, Bool.false_eq_true, if_false, alignOffsets]
        rw [u32_i32_roundtrip t.x hx1 hx2, u32_i32_roundtrip t.y hy1 hy2,
            u32_as_i32_coe _ hmx, u32_as_i32_coe _ hmy]

/-- C5 amended, witness at the pixel pair and `Offset(-3, 0)`. -/
theorem offset_anchor_resolution_witness :
    farPairPixels ≠ [] ∧
    (loadAnchor 5 3 farPairPixels (some (RenderPlacementConfig.Offset (Translation.new (-3) 0))) =
        ((max (-3 : Int) 0).toNat, (max (0 : Int) 0).toNat) ∧
      align farPairPixels (RenderPlacementConfig.Offset (Translation.new (-3) 0))
          (DiscreteCoord.new 12 1) =
        translate farPairPixels
          (Translation.new ((-3) - (minX farPairPixels : Int))
            (0 - (minY farPairPixels : Int)))) :=
  ⟨List.cons_ne_nil _ _,
   offset_anchor_resolution 5 3 farPairPixels (Translation.new (-3) 0) (DiscreteCoord.new 12 1)
     (List.cons_ne_nil _ _) (by decide) (by decide) (by decide) (by decide)
     (by decide) (by decide)⟩

/-- C6 counterexample: on a 1-wide, 1-tall engine, `set_pixel(1, 1, blank)`
has `x ≥ width` yet still grows the buffer — it does not leave it
byte-for-byte unchanged. -/
theorem set_pixel_oob_x_still_grows :
    (OvertureRenderEngine.new 1 1).width ≤ 1 ∧
    (set_pixel (OvertureRenderEngine.new 1 1) 1 1 RenderChar.BLANK_RENDER_CHAR).buffer ≠
      (OvertureRenderEngine.new 1 1).buffer :=
  ⟨by decide, fun h => absurd (congrArg List.length h) (by decide)⟩

/-- C6 amended: `set_pixel` at `y` at or beyond the row count grows the
buffer to exactly `y + 1` rows, the added rows blank except the written
cell (written only when `x < width`); `set_pixel` with `x ≥ width` leaves
the engine unchanged provided `y` is within the current row count. -/
theorem set_pixel_growth_and_oob (e : OvertureRenderEngine) (x y : Nat) (ch : RenderChar) :
    (e.buffer.length ≤ y →
      (set_pixel e x y ch).buffer =
        (e.buffer ++ List.replicate (y - e.buffer.length) (blankRow e.width)) ++
          [if x < e.width then (blankRow e.width).set x ch else blankRow e.width] ∧
      (set_pixel e x y ch).buffer.length = y + 1) ∧
    (e.width ≤ x → y < e.buffer.length → set_pixel e x y ch = e) := by
  constructor
  · intro hle
    have hgrow : growBuffer e.buffer e.width y =
        (e.buffer ++ List.replicate (y - e.buffer.length) (blankRow e.width)) ++
          [blankRow e.width] := by
      unfold growBuffer
      rw [show y + 1 - e.buffer.length = (y - e.buffer.length) + 1 by omega,
          List.replicate_succ', ← List.append_assoc]
    have hlen :
        (e.buffer ++ List.replicate (y - e.buffer.length) (blankRow e.width)).length = y := by
      simp
      omega
    have hmod := listModify_append_singleton
      (e.buffer ++ List.replicate (y - e.buffer.length) (blankRow e.width))
      (blankRow e.width) (fun row => row.set x ch)
    rw [hlen] at hmod
    have hbuf : (set_pixel e x y ch).buffer =
        (e.buffer ++ List.replicate (y - e.buffer.length) (blankRow e.width)) ++
          [if x < e.width then (blankRow e.width).set x ch else blankRow e.width] := by
      unfold set_pixel
      split
      · show (listModify (growBuffer e.buffer e.width y) y fun row => row.set x ch) = _
        rw [hgrow, hmod]
      · show growBuffer e.buffer e.width y = _
        rw [hgrow]
    refine ⟨hbuf, ?_⟩
    rw [hbuf]
    simp
    omega
  · intro hx hy
    have hgrow : growBuffer e.buffer e.width y = e.buffer := by
      unfold growBuffer
      rw [show y + 1 - e.buffer.length = 0 by omega]
      simp
    unfold set_pixel
    rw [if_neg (by omega : ¬ x < e.width)]
    show ({ e with buffer := growBuffer e.buffer e.width y } : OvertureRenderEngine) = e
    rw [hgrow]

/-- C6 amended, witness: growth from one row to three on a 1-wide engine,
and a dropped in-range-row write at `x = 3`. -/
theorem set_pixel_growth_and_oob_witness :
    ((OvertureRenderEngine.new 1 1).buffer.length ≤ 2) ∧
    (set_pixel (OvertureRenderEngine.new 1 1) 0 2 RenderChar.BLANK_RENDER_CHAR).buffer =
      ((OvertureRenderEngine.new 1 1).buffer ++
        List.replicate (2 - (OvertureRenderEngine.new 1 1).buffer.length)
          (blankRow (OvertureRenderEngine.new 1 1).width)) ++
        [if 0 < (OvertureRenderEngine.new 1 1).width then
            (blankRow (OvertureRenderEngine.new 1 1).width).set 0 RenderChar.BLANK_RENDER_CHAR
          else blankRow (OvertureRenderEngine.new 1 1).width] ∧
    (set_pixel (OvertureRenderEngine.new 1 1) 0 2 RenderChar.BLANK_RENDER_CHAR).buffer.length =
      2 + 1 ∧
    set_pixel (OvertureRenderEngine.new 1 1) 3 0 RenderChar.BLANK_RENDER_CHAR =
      OvertureRenderEngine.new 1 1 :=
  ⟨by decide,
   ((set_pixel_growth_and_oob (OvertureRenderEngine.new 1 1) 0 2
      RenderChar.BLANK_RENDER_CHAR).1 (by decide)).1,
   ((set_pixel_growth_and_oob (OvertureRenderEngine.new 1 1) 0 2
      RenderChar.BLANK_RENDER_CHAR).1 (by decide)).2,
   (set_pixel_growth_and_oob (OvertureRenderEngine.new 1 1) 3 0
      RenderChar.BLANK_RENDER_CHAR).2 (by decide) (by decide)⟩

/-- C7: loading the single unit `{'A' at (0,0)}` into a fresh 5-column,
3-row engine with `CenterStage` puts the glyph at column 2 of row 1 and
leaves every other cell blank. -/
theorem load_single_unit_centerstage :
    (load_renderable (OvertureRenderEngine.new 5 3)
        [Pixel.new { ch := 'A', style := RenderStyle.Plain } (DiscreteCoord.new 0 0) false]
        (some RenderPlacementConfig.CenterStage)).buffer =
      [blankRow 5, (blankRow 5).set 2 { ch := 'A', style := RenderStyle.Plain }, blankRow 5] :=
  rfl

/-- C8: `prune` keeps exactly the pixels of `rasterize()` whose glyph is
not the blank glyph or which are protected, preserving order (it yields a
sublist), and is idempotent. -/
theorem prune_keeps_nonblank_or_protected (pixels : List Pixel) :
    prune (prune pixels) = prune pixels ∧
    (prune pixels).Sublist (rasterize pixels) ∧
    ∀ p, p ∈ prune pixels ↔
      p ∈ rasterize pixels ∧
        (p.content.ch ≠ RenderChar.BLANK_RENDER_CHAR.ch ∨ p.protected_ = true) := by
  refine ⟨?_, ?_, ?_⟩
  · exact List.filter_eq_self.mpr fun a ha => (List.mem_filter.mp ha).2
  · exact List.filter_sublist _
  · intro p
    simp [prune, rasterize, List.mem_filter, bne_iff_ne, Bool.or_eq_true]

/-- C9: forcing every pixel's protection flag with `protect` defeats
`prune` entirely — nothing is dropped, and count, order, glyphs and
positions all match the original pixel list. -/
theorem protect_defeats_prune (pixels : List Pixel) :
    prune (protect pixels) = protect pixels ∧
    (prune (protect pixels)).length = pixels.length ∧
    (prune (protect pixels)).map (fun p => (p.content, p.position)) =
      pixels.map (fun p => (p.content, p.position)) := by
  have h1 : prune (protect pixels) = protect pixels := by
    refine List.filter_eq_self.mpr ?_
    intro p hp
    rcases List.mem_map.mp hp with ⟨q, hq, rfl⟩
    simp [Pixel.new]
  refine ⟨h1, ?_, ?_⟩
  · rw [h1]; simp [protect]
  · rw [h1]
    unfold protect
    rw [List.map_map]
    rfl

/-- C4: `load_renderable` computes the anchor from the normalized extent
but paints the original, un-normalized `pixels()` shifted by that anchor —
each painted cell lands at `anchor + original position`. Concretely, for
the off-origin unit `{'A' at (3,0)}` on a fresh 5×3 engine under
`CenterStage` the anchor is `(2,1)` (computed for a 1×1 object), painting
targets column `2 + 3 = 5`, which is clipped, and the buffer stays blank —
while painting the normalized pixel at that anchor would have written the
glyph. -/
theorem load_renderable_paints_unnormalized (e : OvertureRenderEngine) (pixels : List Pixel)
    (placement : Option RenderPlacementConfig) (hne : pixels ≠ []) :
    load_renderable e pixels placement =
      pixels.foldl
        (fun eng p =>
          set_pixel eng
            ((loadAnchor e.width e.buffer.length pixels placement).1 + p.position.x)
            ((loadAnchor e.width e.buffer.length pixels placement).2 + p.position.y)
            p.content) e ∧
    (load_renderable (OvertureRenderEngine.new 5 3) offAxisPixels
        (some RenderPlacementConfig.CenterStage)).buffer =
      (OvertureRenderEngine.new 5 3).buffer ∧
    (render_at (normalizePixels offAxisPixels)
        (loadAnchor 5 3 offAxisPixels (some RenderPlacementConfig.CenterStage)).1
        (loadAnchor 5 3 offAxisPixels (some RenderPlacementConfig.CenterStage)).2
        (OvertureRenderEngine.new 5 3)).buffer ≠
      (OvertureRenderEngine.new 5 3).buffer := by
  refine ⟨?_, rfl,
    fun h => absurd (congrArg (List.map (List.map RenderChar.ch)) h) (by decide)⟩
  have hni : pixels.isEmpty = false := by
    cases pixels with
    | nil => exact absurd rfl hne
    | cons p ps => rfl
  simp [load_renderable, render_at, hni]

/-- C4, witness at the off-origin unit with `CenterStage`. -/
theorem load_renderable_paints_unnormalized_witness :
    offAxisPixels ≠ [] ∧
    load_renderable (OvertureRenderEngine.new 5 3) offAxisPixels
        (some RenderPlacementConfig.CenterStage) =
      offAxisPixels.foldl
        (fun eng p =>
          set_pixel eng
            ((loadAnchor (OvertureRenderEngine.new 5 3).width
                (OvertureRenderEngine.new 5 3).buffer.length offAxisPixels
                (some RenderPlacementConfig.CenterStage)).1 + p.position.x)
            ((loadAnchor (OvertureRenderEngine.new 5 3).width
                (OvertureRenderEngine.new 5 3).buffer.length offAxisPixels
                (some RenderPlacementConfig.CenterStage)).2 + p.position.y)
            p.content) (OvertureRenderEngine.new 5 3) :=
  ⟨List.cons_ne_nil _ _,
   (load_renderable_paints_unnormalized (OvertureRenderEngine.new 5 3) offAxisPixels
      (some RenderPlacementConfig.CenterStage) (List.cons_ne_nil _ _)).1⟩

/-- C10: every buffer row holds exactly `width` cells — true after
`new(width, height)` and preserved by `set_pixel`, by `render`'s padding
and by `load_renderable`. -/
theorem buffer_rows_width_invariant :
    (∀ w h, rowsWF (OvertureRenderEngine.new w h)) ∧
    (∀ e x y ch, rowsWF e → rowsWF (set_pixel e x y ch)) ∧
    (∀ e h, rowsWF e → rowsWF (renderPad e h)) ∧
    (∀ e pixels placement, rowsWF e → rowsWF (load_renderable e pixels placement)) := by
  refine ⟨?_, ?_, ?_, ?_⟩
  · intro w h
    exact buffWF_replicate w h
  · exact fun e x y ch h => rowsWF_set_pixel e x y ch h
  · intro e h hwf
    exact buffWF_append hwf (buffWF_replicate _ _)
  · intro e pixels placement hwf
    cases pixels with
    | nil => exact hwf
    | cons p ps => exact rowsWF_foldl_set_pixel (p :: ps) _ _ _ hwf

/-- C10, witness: the invariant holds on a fresh 2×2 engine and survives a
buffer-growing `set_pixel`. -/
theorem buffer_rows_width_invariant_witness :
    rowsWF (OvertureRenderEngine.new 2 2) ∧
    rowsWF (set_pixel (OvertureRenderEngine.new 2 2) 0 3 RenderChar.BLANK_RENDER_CHAR) :=
  ⟨by decide,
   buffer_rows_width_invariant.2.1 (OvertureRenderEngine.new 2 2) 0 3
     RenderChar.BLANK_RENDER_CHAR (by decide)⟩

end Overture
